import Mathlib

/-!
Verification of the pgx sample against its natural-language specification.

The development shallowly embeds four source files:

* `pgx-utils/src/sql_entity_graph/pg_extern/returning.rs` — the return-shape
  classifier (`Returning` and its parsing functions over `syn` types);
* `cargo-pgx/src/commands/install.rs` — the install pipeline steps
  (`copy_sql_files` upgrade-file copying, `find_library_file`, `get_version`);
* `pgx-tests/src/tests/heap_tuple.rs` — the typed record accessor exercised by
  those tests (the accessor implementation itself is not part of the sample, so
  it is modelled from the spec, consistent with the tests);
* `pgx-version-updater/src/main.rs` — `parse_new_version`.

Strings manipulated by the install pipeline and the version updater are
modelled as `List Char`, matching Rust character-level semantics of the
operations the code performs on them.
-/

set_option autoImplicit false

namespace VersionUpdater

/-- Model of Rust `str::find(|c| c.is_numeric())`: index of the first character
satisfying the predicate. The numeric-character predicate is a parameter
(`Char::is_numeric` in the source). -/
def findNum (isNum : Char → Bool) : List Char → Option Nat
  | [] => Option.none
  | c :: rest => if isNum c then some 0 else (findNum isNum rest).map (· + 1)

/-- Embedding of `parse_new_version` from `pgx-version-updater/src/main.rs`.
`Option.none` models the panics (`unwrap` on an empty specifier, or `unwrap`
on `find` when no character is numeric). -/
def parse_new_version (isNum : Char → Bool) (old_version_specifier new_version : List Char) :
    Option (List Char) :=
  match old_version_specifier with
  | [] => Option.none
  | c :: _ =>
    if isNum c then
      some old_version_specifier
    else
      match findNum isNum old_version_specifier with
      | Option.none => Option.none
      | some i => some (old_version_specifier.take i ++ new_version)

end VersionUpdater

namespace Install

/-- Character-list prefix test (Rust `str::starts_with`). -/
def strStarts : List Char → List Char → Bool
  | [], _ => true
  | _ :: _, [] => false
  | p :: ps, c :: cs => p == c && strStarts ps cs

/-- Character-list suffix test (Rust `str::ends_with`). -/
def strEnds (suf s : List Char) : Bool :=
  strStarts suf.reverse s.reverse

/-- Character-list substring test (Rust `str::contains`). -/
def hasSub (pat s : List Char) : Bool :=
  (List.range (s.length + 1)).any (fun i => strStarts pat (s.drop i))

/-- The two-dash separator used by extension SQL file names. -/
def dd : List Char := ['-', '-']

/-- The `.sql` file suffix. -/
def sqlSuffix : List Char := ['.', 's', 'q', 'l']

/-- The filename filter of the upgrade-copy loop in `copy_sql_files`
(`install.rs` lines 127-139): the filename starts with the extension name
followed by two dashes, and ends with the `.sql` suffix. -/
def upgradeCopyName (extname filename : List Char) : Bool :=
  strStarts (extname ++ dd) filename && strEnds sqlSuffix filename

/-- Embedding of the upgrade-copy loop of `copy_sql_files`: the directory is a
list of (filename, contents) pairs; the step copies, verbatim, exactly the
entries passing `upgradeCopyName`. -/
def copy_upgrade_files (extname : List Char) (dir : List (List Char × List Char)) :
    List (List Char × List Char) :=
  dir.filter (fun f => upgradeCopyName extname f.1)

/-- Drop the last `n` characters. -/
def dropRightN (n : Nat) (l : List Char) : List Char :=
  l.take (l.length - n)

/-- Follows the spec (not the source): the upgrade-script naming convention
`<extension>--<fromVersion>--<toVersion>.sql`, as a decidable check — the name
starts with `<extension>--`, ends with `.sql`, and the part between those two
still has a `--` separating the two versions. -/
def specUpgradeConvention (extname filename : List Char) : Bool :=
  strStarts (extname ++ dd) filename && strEnds sqlSuffix filename &&
    hasSub dd (dropRightN 4 (filename.drop (extname.length + 2)))

/-- The filename filter of `find_library_file` (`install.rs` lines 159-164):
contains the extension name, starts with `lib`, and ends with a recognized
platform suffix. -/
def library_file_matches (extname filename : List Char) : Bool :=
  hasSub extname filename && strStarts ['l', 'i', 'b'] filename &&
    (strEnds ['.', 's', 'o'] filename ||
      strEnds ['.', 'd', 'y', 'l', 'i', 'b'] filename ||
      strEnds ['.', 'd', 'l', 'l'] filename)

/-- Embedding of the scan loop of `find_library_file`: returns the first
directory entry passing `library_file_matches`; `Option.none` models the
`exit_with_error` fall-through when no entry matches. -/
def find_library_file (extname : List Char) (dir : List (List Char)) : Option (List Char) :=
  dir.find? (library_file_matches extname)

/-- Embedding of `get_version` (`install.rs` lines 173-178), parameterized by
the control-file property table; `get_property` is the key/value lookup.
`Option.none` models `exit_with_error` (a fatal abort). -/
def get_property (props : List (List Char × List Char)) (key : List Char) :
    Option (List Char) :=
  (props.find? (fun p => p.1 == key)).map (fun p => p.2)

/-- The `default_version` control-file property name. -/
def default_version_key : List Char :=
  ['d', 'e', 'f', 'a', 'u', 'l', 't', '_', 'v', 'e', 'r', 's', 'i', 'o', 'n']

def get_version (props : List (List Char × List Char)) : Option (List Char) :=
  get_property props default_version_key

/-- The versioned install script filename computed by `copy_sql_files`
(`install.rs` line 96): the extension directory, a slash, the extension name,
two dashes, the version from `get_version`, and the `.sql` suffix.
`Option.none` models the fatal abort of `get_version`. -/
def version_script_name (extdir extname : List Char) (props : List (List Char × List Char)) :
    Option (List Char) :=
  (get_version props).map (fun v => extdir ++ ['/'] ++ extname ++ dd ++ v ++ sqlSuffix)

/-- The extension name `ext` used by concrete instances. -/
def extC : List Char := ['e', 'x', 't']

/-- The filename `ext--1.0.sql`: a versioned-script name with a single `--`
separator, not an upgrade-script name. -/
def versionedName : List Char := extC ++ dd ++ ['1', '.', '0'] ++ sqlSuffix

/-- The filename `ext--1--2.sql`: a genuine upgrade-script name. -/
def upgradeName : List Char := extC ++ dd ++ ['1'] ++ dd ++ ['2'] ++ sqlSuffix

def contC : List Char := ['c']

/-- The filename `libext.so`. -/
def libSoName : List Char := ['l', 'i', 'b'] ++ extC ++ ['.', 's', 'o']

/-- The filename `libext.dylib`. -/
def libDylibName : List Char := ['l', 'i', 'b'] ++ extC ++ ['.', 'd', 'y', 'l', 'i', 'b']

def verW : List Char := ['1', '.', '0']

def extdirW : List Char := ['d']

def propsW : List (List Char × List Char) := [(default_version_key, verW)]

end Install

namespace HeapTuple

/-- Modelled from the spec: the runtime representation of a stored attribute
value of the Typed Record Accessor (a Datum together with the type it was
written at). The accessor implementation (`PgHeapTuple` in the pgx runtime
crate) is not part of the sample; only its tests in
`pgx-tests/src/tests/heap_tuple.rs` are, so the value model follows §3/§4.6 of
the spec. -/
structure StoredValue where
  oid : Nat
  payload : Nat
deriving DecidableEq

/-- The runtime accessor error surface (§6 of the spec, matching
`TryFromDatumError` as used by the tests; `NoSuchType` is raised by
`new_composite_type`). -/
inductive TryFromDatumError where
  | noSuchType (name : String)
  | noSuchAttributeName (name : String)
  | noSuchAttributeNumber (index : Nat)
  | incompatibleTypes
deriving DecidableEq

/-- Modelled from the spec: a host-allocated RecordValue — an opaque tuple of
attribute slots backed by a type descriptor (ordered list of attribute name →
declared type oid). Host-allocated instances are the mutable ones; `set` below
is the `AllocatedByRust` API exercised by the tests. -/
structure RecordValue where
  descriptor : List (String × Nat)
  slots : List (Option StoredValue)
deriving DecidableEq

/-- Name resolution: scan the descriptor for a matching attribute name,
returning its 0-based slot index and declared type oid. -/
def lookupAttr : List (String × Nat) → String → Option (Nat × Nat)
  | [], _ => Option.none
  | a :: rest, name =>
    if a.1 = name then some (0, a.2)
    else (lookupAttr rest name).map (fun p => (p.1 + 1, p.2))

/-- Modelled from the spec: `get(name)` with an expected type oid. An unset
slot yields `Ok(None)`; a set slot whose stored representation does not match
the expected type yields `IncompatibleTypes`; an unknown name yields
`NoSuchAttributeName`. -/
def get_by_name (rv : RecordValue) (expected : Nat) (name : String) :
    Except TryFromDatumError (Option StoredValue) :=
  match lookupAttr rv.descriptor name with
  | Option.none => .error (.noSuchAttributeName name)
  | some (i, _) =>
    match rv.slots.getD i Option.none with
    | Option.none => .ok Option.none
    | some v => if v.oid = expected then .ok (some v) else .error .incompatibleTypes

/-- Modelled from the spec: `set(name, value)` requires the value to already
satisfy the declared type of the attribute (no coercion); a mismatch yields
`IncompatibleTypes` and leaves the record untouched. The returned pair is
(result, post-state), mirroring the Rust `&mut self` method. -/
def set_by_name (rv : RecordValue) (name : String) (v : StoredValue) :
    Except TryFromDatumError Unit × RecordValue :=
  match lookupAttr rv.descriptor name with
  | Option.none => (.error (.noSuchAttributeName name), rv)
  | some (i, declared) =>
    if v.oid = declared then (.ok (), { rv with slots := rv.slots.set i (some v) })
    else (.error .incompatibleTypes, rv)

/-- Modelled from the spec: `get(index)` with a 1-based, non-zero positional
index, bounds-checked against the descriptor length. -/
def get_by_index (rv : RecordValue) (expected : Nat) (index : Nat) :
    Except TryFromDatumError (Option StoredValue) :=
  if 1 ≤ index ∧ index ≤ rv.descriptor.length then
    match rv.slots.getD (index - 1) Option.none with
    | Option.none => .ok Option.none
    | some v => if v.oid = expected then .ok (some v) else .error .incompatibleTypes
  else .error (.noSuchAttributeNumber index)

/-- Modelled from the spec: `set(index, value)`, 1-based and bounds-checked,
with the same no-coercion type check as `set_by_name`. -/
def set_by_index (rv : RecordValue) (index : Nat) (v : StoredValue) :
    Except TryFromDatumError Unit × RecordValue :=
  if 1 ≤ index ∧ index ≤ rv.descriptor.length then
    match rv.descriptor.get? (index - 1) with
    | some (_, declared) =>
      if v.oid = declared then (.ok (), { rv with slots := rv.slots.set (index - 1) (some v) })
      else (.error .incompatibleTypes, rv)
    | Option.none => (.error (.noSuchAttributeNumber index), rv)
  else (.error (.noSuchAttributeNumber index), rv)

def attrName : String := "name"

def attrAge : String := "age"

def missingAttr : String := "DEFINITELY_NOT_EXISTING"

/-- The PostgreSQL `text` type oid. -/
def textOid : Nat := 25

/-- The PostgreSQL `int4` type oid. -/
def intOid : Nat := 23

/-- The descriptor of the test composite type `DogWithAge (name text, age int)`. -/
def dogDescriptor : List (String × Nat) := [(attrName, textOid), (attrAge, intOid)]

/-- A freshly created `DogWithAge` record: both attributes unset. -/
def rvEmptyDog : RecordValue := ⟨dogDescriptor, [Option.none, Option.none]⟩

/-- A `DogWithAge` record whose `name` attribute holds a text value. -/
def rvNamedDog : RecordValue := ⟨dogDescriptor, [some ⟨textOid, 7⟩, Option.none]⟩

end HeapTuple

namespace PgExtern

mutual

/-- The subset of `syn::Type` that `Returning::try_from` inspects
(`returning.rs`): paths, tuples, type macros, references, `impl Trait`,
`dyn Trait`, parenthesized types, and an opaque constructor for every other
`syn::Type` form (which the classifier uniformly rejects). -/
inductive SynType where
  | path (segments : List PathSegment)
  | tuple (elems : List SynType)
  | mac (lastIdent : String) (body : MacBody)
  | reference (elem : SynType)
  | implTrait (bounds : List TypeParamBound)
  | traitObject (bounds : List TypeParamBound)
  | paren (elem : SynType)
  | otherType

/-- A `syn::PathSegment`: an identifier plus its generic arguments. -/
inductive PathSegment where
  | mk (ident : String) (arguments : PathArguments)

/-- `syn::PathArguments`. -/
inductive PathArguments where
  | noArgs
  | angleBracketed (args : List GenericArgument)
  | parenthesized

/-- The subset of `syn::GenericArgument` the classifier inspects: plain type
arguments and associated-type bindings (`Item = ...`). -/
inductive GenericArgument where
  | typeArg (ty : SynType)
  | binding (ident : String) (ty : SynType)
  | otherArg

/-- The body of a `syn` type macro as the classifier sees it: a body parseable
as `NameMacro` (`name!(ident, Type)`), a `composite_type!("Name")` body, or
anything else (on which `mac.parse_body::<NameMacro>()` errors). -/
inductive MacBody where
  | nameMac (ident : String) (ty : SynType)
  | compositeMac (typeName : String)
  | otherBody

/-- `syn::TypeParamBound`. -/
inductive TypeParamBound where
  | traitBound (segments : List PathSegment)
  | lifetime

end

def PathSegment.ident : PathSegment → String
  | PathSegment.mk i _ => i

def PathSegment.arguments : PathSegment → PathArguments
  | PathSegment.mk _ a => a

/-- Failure of a parsing function: a returned `syn::Error`, or a panic
(`unwrap` / `unimplemented!`). -/
inductive ParseErr where
  | synError
  | panicked
deriving DecidableEq

/-- Wrapper layers recognized by the Used-Type Resolver (§4.1 of the spec). -/
inductive WrapperKind where
  | optionW
  | vecW
  | arrayW
  | variadicW
  | boxW
  | refW
deriving DecidableEq

/-- Leaf of a resolved type reference: a scalar type name or a named composite
type. -/
inductive UsedTypeLeaf where
  | scalar (name : String)
  | composite (typeName : String)
deriving DecidableEq

/-- Modelled from the spec (§3, §4.1): a resolved type reference — wrapper
stack plus leaf. `UsedType::new` lives in `sql_entity_graph/used_type.rs`,
which is not part of the sample; the claims under proof treat the resolved
`UsedType` opaquely. -/
structure UsedType where
  wrappers : List WrapperKind
  leaf : UsedTypeLeaf
deriving DecidableEq

def wrapperOf : String → Option WrapperKind
  | "Option" => some WrapperKind.optionW
  | "Vec" => some WrapperKind.vecW
  | "Array" => some WrapperKind.arrayW
  | "VariadicArray" => some WrapperKind.variadicW
  | "Box" => some WrapperKind.boxW
  | _ => Option.none

/-- Modelled from the spec (§4.1): the Used-Type Resolver — peel recognized
container wrappers from the outside in, stopping at a scalar path leaf or a
`composite_type!` reference; any other leaf is an unsupported construct
(a generation-time error). The fuel argument only bounds the recursion depth;
`UsedType.new` supplies `resolverFuel`, far beyond any realistic nesting. -/
def UsedType.newAux : Nat → SynType → Except ParseErr UsedType
  | 0, _ => .error ParseErr.panicked
  | Nat.succ fuel, t =>
    match t with
    | SynType.reference elem =>
      match UsedType.newAux fuel elem with
      | .error e => .error e
      | .ok u => .ok ⟨WrapperKind.refW :: u.wrappers, u.leaf⟩
    | SynType.mac lastIdent body =>
      match lastIdent, body with
      | "composite_type", MacBody.compositeMac n => .ok ⟨[], UsedTypeLeaf.composite n⟩
      | _, _ => .error ParseErr.synError
    | SynType.path segs =>
      match segs.getLast? with
      | Option.none => .error ParseErr.synError
      | some seg =>
        match wrapperOf seg.ident with
        | some w =>
          match seg.arguments with
          | PathArguments.angleBracketed (GenericArgument.typeArg inner :: _) =>
            match UsedType.newAux fuel inner with
            | .error e => .error e
            | .ok u => .ok ⟨w :: u.wrappers, u.leaf⟩
          | _ => .error ParseErr.synError
        | Option.none => .ok ⟨[], UsedTypeLeaf.scalar seg.ident⟩
    | _ => .error ParseErr.synError

/-- Recursion-depth budget for the resolver; wrapper stacks of real type
expressions are a handful of layers deep. -/
def resolverFuel : Nat := 1000

def UsedType.new (t : SynType) : Except ParseErr UsedType :=
  UsedType.newAux resolverFuel t

/-- One output column of an `Iterated` shape (`returning.rs` lines 19-23). -/
structure ReturningIteratedItem where
  used_ty : UsedType
  name : Option String
deriving DecidableEq

/-- The return-shape classification (`returning.rs` lines 25-33). -/
inductive Returning where
  | none
  | type (used_ty : UsedType)
  | setOf (used_ty : UsedType)
  | iterated (items : List ReturningIteratedItem)
  | trigger
deriving DecidableEq

def Returning.isSetOf : Returning → Bool
  | Returning.setOf _ => true
  | _ => false

/-- One tuple element of `parse_type_tuple` (`returning.rs` lines 69-104):
a `name!` macro yields a named item, a `composite_type!` macro or a bare type
yields an anonymous item. -/
def parseTupleElem (elem : SynType) : Except ParseErr ReturningIteratedItem :=
  match elem with
  | SynType.mac lastIdent body =>
    match lastIdent with
    | "name" =>
      match body with
      | MacBody.nameMac ident ty =>
        match UsedType.new ty with
        | .error e => .error e
        | .ok u => .ok ⟨u, some ident⟩
      | _ => .error ParseErr.synError
    | "composite_type" =>
      match UsedType.new (SynType.mac lastIdent body) with
      | .error e => .error e
      | .ok u => .ok ⟨u, Option.none⟩
    | _ => .error ParseErr.panicked
  | ty =>
    match UsedType.new ty with
    | .error e => .error e
    | .ok u => .ok ⟨u, Option.none⟩

def parseTupleElems : List SynType → Except ParseErr (List ReturningIteratedItem)
  | [] => .ok []
  | e :: rest =>
    match parseTupleElem e with
    | .error err => .error err
    | .ok item =>
      match parseTupleElems rest with
      | .error err => .error err
      | .ok items => .ok (item :: items)

/-- Embedding of `Returning::parse_type_tuple` (`returning.rs` lines 64-107):
the empty tuple is `None`; otherwise every element becomes an `Iterated` item
in declaration order — including a tuple of exactly one element. -/
def parse_type_tuple (elems : List SynType) : Except ParseErr Returning :=
  if elems.length = 0 then .ok Returning.none
  else
    match parseTupleElems elems with
    | .error err => .error err
    | .ok items => .ok (Returning.iterated items)

/-- Embedding of `Returning::parse_trait_bound` (`returning.rs` lines 36-62). -/
def parse_trait_bound (segments : List PathSegment) : Except ParseErr Returning :=
  match segments.getLast? with
  | Option.none => .error ParseErr.panicked
  | some seg =>
    if seg.ident = "Iterator" then
      match seg.arguments with
      | PathArguments.angleBracketed [] => .error ParseErr.panicked
      | PathArguments.angleBracketed (first :: _) =>
        match first with
        | GenericArgument.binding _ bty =>
          match bty with
          | SynType.tuple elems => parse_type_tuple elems
          | SynType.path segs2 =>
            match UsedType.new (SynType.path segs2) with
            | .error e => .error e
            | .ok u => .ok (Returning.setOf u)
          | SynType.reference elem =>
            match elem with
            | SynType.path segs2 =>
              match UsedType.new (SynType.path segs2) with
              | .error e => .error e
              | .ok u => .ok (Returning.setOf u)
            | _ => .error ParseErr.panicked
          | _ => .error ParseErr.panicked
        | _ => .error ParseErr.panicked
      | _ => .error ParseErr.panicked
    else .error ParseErr.panicked

/-- Embedding of `Returning::parse_impl_trait` (`returning.rs` lines 109-114). -/
def parse_impl_trait (bounds : List TypeParamBound) : Except ParseErr Returning :=
  match bounds with
  | [] => .error ParseErr.panicked
  | TypeParamBound.traitBound segs :: _ => parse_trait_bound segs
  | TypeParamBound.lifetime :: _ => .ok Returning.none

/-- Embedding of `Returning::parse_dyn_trait` (`returning.rs` lines 137-142). -/
def parse_dyn_trait (bounds : List TypeParamBound) : Except ParseErr Returning :=
  match bounds with
  | [] => .error ParseErr.panicked
  | TypeParamBound.traitBound segs :: _ => parse_trait_bound segs
  | TypeParamBound.lifetime :: _ => .ok Returning.none

/-- Embedding of the type-macro branch (`returning.rs` lines 116-135). -/
def parse_type_mac (lastIdent : String) (body : MacBody) : Except ParseErr Returning :=
  match lastIdent with
  | "name" =>
    match body with
    | MacBody.nameMac ident ty =>
      match UsedType.new ty with
      | .error e => .error e
      | .ok u => .ok (Returning.iterated [⟨u, some ident⟩])
    | _ => .error ParseErr.synError
  | "composite_type" =>
    match UsedType.new (SynType.mac lastIdent body) with
    | .error e => .error e
    | .ok u => .ok (Returning.type u)
  | _ => .error ParseErr.panicked

/-- The mutable state of the segment loop in the `syn::Type::Path` branch of
`TryFrom` (`returning.rs` lines 163-167). -/
structure ScanState where
  sawPgSys : Bool
  sawDatum : Bool
  sawOptionIdent : Bool
  sawBoxIdent : Bool
  inner : Option Returning
deriving DecidableEq

/-- One iteration of the segment loop (`returning.rs` lines 169-201): update
the four identifier flags, and once `Option`/`Box` has been seen, look inside
the angle-bracketed arguments of the current segment for an `impl Trait` /
`dyn Trait` to classify. -/
def scanSegment (st : ScanState) (seg : PathSegment) : Except ParseErr ScanState :=
  let st1 : ScanState :=
    { st with
      sawPgSys := st.sawPgSys || seg.ident == "pg_sys"
      sawDatum := st.sawDatum || seg.ident == "Datum"
      sawOptionIdent := st.sawOptionIdent || seg.ident == "Option"
      sawBoxIdent := st.sawBoxIdent || seg.ident == "Box" }
  if st1.sawOptionIdent || st1.sawBoxIdent then
    match seg.arguments with
    | PathArguments.angleBracketed (GenericArgument.typeArg (SynType.implTrait bounds) :: _) =>
      match parse_impl_trait bounds with
      | .error e => .error e
      | .ok r => .ok { st1 with inner := some r }
    | PathArguments.angleBracketed (GenericArgument.typeArg (SynType.traitObject bounds) :: _) =>
      match parse_dyn_trait bounds with
      | .error e => .error e
      | .ok r => .ok { st1 with inner := some r }
    | _ => .ok st1
  else .ok st1

def scanSegments : ScanState → List PathSegment → Except ParseErr ScanState
  | st, [] => .ok st
  | st, seg :: rest =>
    match scanSegment st seg with
    | .error e => .error e
    | .ok st1 => scanSegments st1 rest

def initScan : ScanState :=
  ⟨false, false, false, false, Option.none⟩

/-- The `syn::Type::Path` branch of `TryFrom<&syn::ReturnType>`
(`returning.rs` lines 161-210): run the segment loop, then classify as
`Trigger` when `(saw_datum && saw_pg_sys) || (saw_datum && len == 1)`, else
use the inner `impl Trait` classification if one was found, else resolve as a
scalar type. -/
def tryFromPath (segs : List PathSegment) : Except ParseErr Returning :=
  match scanSegments initScan segs with
  | .error e => .error e
  | .ok st =>
    if (st.sawDatum && st.sawPgSys) || (st.sawDatum && segs.length == 1) then
      .ok Returning.trigger
    else
      match st.inner with
      | some r => .ok r
      | Option.none =>
        match UsedType.new (SynType.path segs) with
        | .error e => .error e
        | .ok u => .ok (Returning.type u)

/-- `syn::ReturnType`: no declared return type, or a declared type. -/
inductive SynReturnType where
  | default
  | ty (t : SynType)

/-- Embedding of `TryFrom<&syn::ReturnType> for Returning`
(`returning.rs` lines 145-235). -/
def Returning.tryFrom : SynReturnType → Except ParseErr Returning
  | SynReturnType.default => .ok Returning.none
  | SynReturnType.ty t =>
    match t with
    | SynType.implTrait bounds => parse_impl_trait bounds
    | SynType.traitObject bounds => parse_dyn_trait bounds
    | SynType.path segs => tryFromPath segs
    | SynType.reference elem =>
      match UsedType.new (SynType.reference elem) with
      | .error e => .error e
      | .ok u => .ok (Returning.type u)
    | SynType.tuple elems => parse_type_tuple elems
    | SynType.mac l b => parse_type_mac l b
    | SynType.paren inner =>
      match inner with
      | SynType.mac l b => parse_type_mac l b
      | _ => .error ParseErr.synError
    | SynType.otherType => .error ParseErr.synError

/-- The invariant that the classification remembered from an inner
`impl Trait` / `dyn Trait` is never `Trigger`. -/
def goodInner (st : ScanState) : Prop :=
  ∀ r, st.inner = some r → r ≠ Returning.trigger

def strIterator : String := "Iterator"

def strItem : String := "Item"

def strFoo : String := "foo"

def strPgSys : String := "pg_sys"

def strDatum : String := "Datum"

def strI32 : String := "i32"

/-- The one-element anonymous tuple type `(i32,)`. -/
def tyI32 : SynType := SynType.path [PathSegment.mk strI32 PathArguments.noArgs]

/-- The resolved `UsedType` of `i32`. -/
def uI32 : UsedType := ⟨[], UsedTypeLeaf.scalar strI32⟩

end PgExtern

namespace VersionUpdater

/-- When some character is numeric, `findNum` returns the length of the
non-numeric prefix, and taking that many characters is exactly that prefix. -/
theorem findNum_spec (isNum : Char → Bool) :
    ∀ l : List Char, l.any isNum = true →
      findNum isNum l = some ((l.takeWhile (fun ch => !isNum ch)).length) ∧
      l.take ((l.takeWhile (fun ch => !isNum ch)).length) =
        l.takeWhile (fun ch => !isNum ch) := by
  intro l
  induction l with
  | nil => intro h; simp at h
  | cons c rest ih =>
    intro h
    by_cases hc : isNum c = true
    · constructor
      · simp [findNum, hc, List.takeWhile_cons]
      · simp [List.takeWhile_cons, hc]
    · simp only [Bool.not_eq_true] at hc
      simp only [List.any_cons, hc, Bool.false_or] at h
      obtain ⟨ih1, ih2⟩ := ih h
      have htw : (c :: rest).takeWhile (fun ch => !isNum ch)
          = c :: rest.takeWhile (fun ch => !isNum ch) := by
        simp [List.takeWhile_cons, hc]
      constructor
      · simp only [findNum, hc, Bool.false_eq_true, if_false, ih1, htw, List.length_cons]
        rfl
      · simp only [htw, List.length_cons, List.take_succ_cons, ih2]

/-- Claim C10: in the version updater, an old version-specifier starting with
a numeric character is returned unchanged (the requested new version is
ignored); a specifier starting with a non-numeric character but containing at
least one numeric character is rewritten to its prefix up to the first numeric
character, concatenated with the new version string. -/
theorem c10_parse_new_version (isNum : Char → Bool) (old_version_specifier new_version : List Char)
    (c : Char) (rest : List Char) (hold : old_version_specifier = c :: rest) :
    (isNum c = true →
      parse_new_version isNum old_version_specifier new_version = some old_version_specifier) ∧
    (isNum c = false → old_version_specifier.any isNum = true →
      parse_new_version isNum old_version_specifier new_version
        = some (old_version_specifier.takeWhile (fun ch => !isNum ch) ++ new_version)) := by
  subst hold
  constructor
  · intro hc
    simp [parse_new_version, hc]
  · intro hc hany
    obtain ⟨h1, h2⟩ := findNum_spec isNum (c :: rest) hany
    simp only [parse_new_version, hc, Bool.false_eq_true, if_false, h1]
    rw [h2]

/-- Witness for `c10_parse_new_version`: the specifier `=1` with new version
`2` becomes `=2`; the specifier `1x` is returned unchanged. -/
theorem c10_parse_new_version_witness :
    Char.isDigit '=' = false ∧
    ['=', '1'].any Char.isDigit = true ∧
    parse_new_version Char.isDigit ['=', '1'] ['2']
      = some (['=', '1'].takeWhile (fun ch => !Char.isDigit ch) ++ ['2']) ∧
    Char.isDigit '1' = true ∧
    parse_new_version Char.isDigit ['1', 'x'] ['2'] = some ['1', 'x'] := by
  refine ⟨rfl, rfl, ?_, rfl, ?_⟩
  · exact (c10_parse_new_version Char.isDigit ['=', '1'] ['2'] '=' ['1'] rfl).2 rfl rfl
  · exact (c10_parse_new_version Char.isDigit ['1', 'x'] ['2'] '1' ['x'] rfl).1 rfl

end VersionUpdater

namespace Install

theorem strStarts_iff (p s : List Char) :
    strStarts p s = true ↔ ∃ t, s = p ++ t := by
  induction p generalizing s with
  | nil => simp [strStarts]
  | cons a ps ih =>
    cases s with
    | nil =>
      simp only [strStarts, Bool.false_eq_true, false_iff]
      intro ⟨t, ht⟩
      simp at ht
    | cons c cs =>
      simp only [strStarts, Bool.and_eq_true, beq_iff_eq, ih]
      constructor
      · rintro ⟨rfl, t, rfl⟩
        exact ⟨t, rfl⟩
      · rintro ⟨t, ht⟩
        simp only [List.cons_append, List.cons.injEq] at ht
        exact ⟨ht.1.symm, t, ht.2⟩

theorem hasSub_of_decomp (pat a b : List Char) :
    hasSub pat (a ++ pat ++ b) = true := by
  simp only [hasSub, List.any_eq_true]
  refine ⟨a.length, ?_, ?_⟩
  · simp only [List.mem_range]
    have : a.length ≤ (a ++ pat ++ b).length := by
      simp only [List.length_append]
      omega
    omega
  · have : (a ++ pat ++ b).drop a.length = pat ++ b := by
      simp [List.drop_append_eq_append_drop]
    rw [this, strStarts_iff]
    exact ⟨b, rfl⟩

/-- Any filename literally of the form `ext ++ "--" ++ v ++ "--" ++ w ++ ".sql"`
passes the spec-side convention check. -/
theorem specUpgradeConvention_complete (extname v w : List Char) :
    specUpgradeConvention extname (extname ++ dd ++ v ++ dd ++ w ++ sqlSuffix) = true := by
  have hstart : strStarts (extname ++ dd) (extname ++ dd ++ v ++ dd ++ w ++ sqlSuffix) = true := by
    rw [strStarts_iff]
    exact ⟨v ++ dd ++ w ++ sqlSuffix, by simp⟩
  have hend : strEnds sqlSuffix (extname ++ dd ++ v ++ dd ++ w ++ sqlSuffix) = true := by
    unfold strEnds
    rw [strStarts_iff]
    exact ⟨(extname ++ dd ++ v ++ dd ++ w).reverse, by simp⟩
  have hdrop1 : (extname ++ dd ++ v ++ dd ++ w ++ sqlSuffix).drop (extname.length + 2)
      = v ++ dd ++ w ++ sqlSuffix := by
    have h1 : extname ++ dd ++ v ++ dd ++ w ++ sqlSuffix
        = (extname ++ dd) ++ (v ++ dd ++ w ++ sqlSuffix) := by simp
    have h2 : extname.length + 2 = (extname ++ dd).length := by simp [dd]
    rw [h1, h2, List.drop_left]
  have hdrop2 : dropRightN 4 (v ++ dd ++ w ++ sqlSuffix) = v ++ dd ++ w := by
    unfold dropRightN
    have h3 : v ++ dd ++ w ++ sqlSuffix = (v ++ dd ++ w) ++ sqlSuffix := by simp
    have h4 : (v ++ dd ++ w ++ sqlSuffix).length - 4 = (v ++ dd ++ w).length := by
      simp only [List.length_append, sqlSuffix, List.length_cons, List.length_nil]
      omega
    rw [h4, h3, List.take_left]
  unfold specUpgradeConvention
  rw [hstart, hend, hdrop1, hdrop2]
  have h5 : v ++ dd ++ w = v ++ dd ++ w := rfl
  have h6 : hasSub dd (v ++ dd ++ w) = true := hasSub_of_decomp dd v w
  rw [h6]
  rfl

/-- Claim C3, counterexample: the pre-existing file `ext--1.0.sql` does not
match the upgrade-script convention `<extension>--<from>--<to>.sql` (its
middle part has no second `--`), yet the copy step copies it, so the step does
not copy exactly the convention-matching files. -/
theorem c3_copy_filter_counterexample :
    copy_upgrade_files extC [(versionedName, contC)] = [(versionedName, contC)] ∧
    specUpgradeConvention extC versionedName = false :=
  ⟨rfl, rfl⟩

/-- Claim C3 (amended): the upgrade-copy step of `copy_sql_files` copies,
verbatim and without parsing, exactly the pre-existing files whose names start
with `<extension>--` and end with `.sql` — a superset of the upgrade-script
convention, which it contains in full. -/
theorem c3_copy_filter_superset (ext : List Char) (dir : List (List Char × List Char))
    (f c : List Char) :
    ((f, c) ∈ copy_upgrade_files ext dir ↔ ((f, c) ∈ dir ∧ upgradeCopyName ext f = true)) ∧
    (specUpgradeConvention ext f = true → upgradeCopyName ext f = true) := by
  constructor
  · simp [copy_upgrade_files, List.mem_filter]
  · intro hs
    unfold specUpgradeConvention at hs
    unfold upgradeCopyName
    simp only [Bool.and_eq_true] at hs ⊢
    exact hs.1

/-- Witness for `c3_copy_filter_superset` on the upgrade file `ext--1--2.sql`. -/
theorem c3_copy_filter_superset_witness :
    (((upgradeName, contC) ∈ copy_upgrade_files extC [(upgradeName, contC)]
        ↔ ((upgradeName, contC) ∈ [(upgradeName, contC)] ∧
           upgradeCopyName extC upgradeName = true)) ∧
      (specUpgradeConvention extC upgradeName = true →
        upgradeCopyName extC upgradeName = true)) ∧
    specUpgradeConvention extC upgradeName = true :=
  ⟨c3_copy_filter_superset extC [(upgradeName, contC)] upgradeName contC, rfl⟩

/-- Claim C4, counterexample: with two matching shared-library files in the
build directory (`libext.so` and `libext.dylib`), `find_library_file` silently
returns the first one instead of failing on the ambiguity. -/
theorem c4_ambiguous_counterexample :
    library_file_matches extC libSoName = true ∧
    library_file_matches extC libDylibName = true ∧
    find_library_file extC [libSoName, libDylibName] = some libSoName :=
  ⟨rfl, rfl, rfl⟩

/-- Claim C4 (amended): `find_library_file` fails loudly (the
`exit_with_error` fall-through, modelled as `Option.none`) exactly when no
directory entry matches; when at least one entry matches it returns the first
matching entry in directory order, even if several match. -/
theorem c4_find_library_first_match (ext : List Char) (dir : List (List Char)) :
    (find_library_file ext dir = Option.none ↔
      ∀ f ∈ dir, library_file_matches ext f = false) ∧
    (∀ f, find_library_file ext dir = some f →
      ∃ pre post, dir = pre ++ f :: post ∧
        (∀ g ∈ pre, library_file_matches ext g = false) ∧
        library_file_matches ext f = true) := by
  induction dir with
  | nil =>
    constructor
    · simp [find_library_file, List.find?]
    · intro f h
      simp [find_library_file, List.find?] at h
  | cons a rest ih =>
    by_cases ha : library_file_matches ext a = true
    · constructor
      · rw [show find_library_file ext (a :: rest) = some a from by
          simp [find_library_file, List.find?_cons_of_pos _ ha]]
        constructor
        · intro h
          cases h
        · intro h
          exact absurd (h a (List.mem_cons_self a rest)) (by rw [ha]; intro hx; cases hx)
      · intro f h
        rw [show find_library_file ext (a :: rest) = some a from by
          simp [find_library_file, List.find?_cons_of_pos _ ha]] at h
        cases h
        refine ⟨[], rest, rfl, ?_, ha⟩
        intro g hg
        exact absurd hg (List.not_mem_nil g)
    · have hfalse : library_file_matches ext a = false := by
        cases hx : library_file_matches ext a
        · rfl
        · exact absurd hx ha
      have hstep : find_library_file ext (a :: rest) = find_library_file ext rest := by
        simp [find_library_file, List.find?_cons_of_neg _ ha]
      constructor
      · rw [hstep, ih.1]
        constructor
        · intro h g hg
          rcases List.mem_cons.mp hg with hga | hgr
          · rw [hga]; exact hfalse
          · exact h g hgr
        · intro h g hg
          exact h g (List.mem_cons_of_mem a hg)
      · intro f h
        rw [hstep] at h
        obtain ⟨pre, post, hdec, hpre, hf⟩ := ih.2 f h
        refine ⟨a :: pre, post, by rw [hdec]; rfl, ?_, hf⟩
        intro g hg
        rcases List.mem_cons.mp hg with hga | hgp
        · rw [hga]; exact hfalse
        · exact hpre g hgp

/-- Witness for `c4_find_library_first_match` on a one-entry directory. -/
theorem c4_find_library_first_match_witness :
    ((find_library_file extC [libSoName] = Option.none ↔
        ∀ f ∈ [libSoName], library_file_matches extC f = false) ∧
      (∀ f, find_library_file extC [libSoName] = some f →
        ∃ pre post, [libSoName] = pre ++ f :: post ∧
          (∀ g ∈ pre, library_file_matches extC g = false) ∧
          library_file_matches extC f = true)) ∧
    find_library_file extC [libSoName] = some libSoName :=
  ⟨c4_find_library_first_match extC [libSoName], rfl⟩

/-- Claim C9: when the control file has a `default_version` property `v`, the
versioned install script is written to `<extdir>/<extensionName>--<v>.sql`;
when the property is absent, `get_version` aborts fatally (modelled as
`Option.none`), so no script name is produced. -/
theorem c9_version_script_name (props : List (List Char × List Char))
    (extdir extname v : List Char) :
    (get_property props default_version_key = some v →
      version_script_name extdir extname props
        = some (extdir ++ ['/'] ++ extname ++ dd ++ v ++ sqlSuffix)) ∧
    (get_property props default_version_key = Option.none →
      version_script_name extdir extname props = Option.none) := by
  constructor
  · intro h
    simp [version_script_name, get_version, h]
  · intro h
    simp [version_script_name, get_version, h]

/-- Witness for `c9_version_script_name`: a control file with
`default_version = 1.0` yields `d/ext--1.0.sql`; an empty control file yields
the fatal-abort outcome. -/
theorem c9_version_script_name_witness :
    get_property propsW default_version_key = some verW ∧
    version_script_name extdirW extC propsW
      = some (extdirW ++ ['/'] ++ extC ++ dd ++ verW ++ sqlSuffix) ∧
    version_script_name extdirW extC [] = Option.none :=
  ⟨rfl, (c9_version_script_name propsW extdirW extC verW).1 rfl,
    (c9_version_script_name [] extdirW extC verW).2 rfl⟩

end Install

namespace HeapTuple

theorem lookupAttr_lt (desc : List (String × Nat)) (name : String) :
    ∀ i d, lookupAttr desc name = some (i, d) → i < desc.length := by
  induction desc with
  | nil => intro i d h; simp [lookupAttr] at h
  | cons a rest ih =>
    intro i d h
    unfold lookupAttr at h
    split at h
    · simp only [Option.some.injEq, Prod.mk.injEq] at h
      simp only [List.length_cons]
      omega
    · rw [Option.map_eq_some'] at h
      obtain ⟨p, hp, hpe⟩ := h
      have hlt := ih p.1 p.2 (by simpa using hp)
      simp only [Prod.mk.injEq] at hpe
      simp only [List.length_cons]
      omega

theorem lookupAttr_eq_none (desc : List (String × Nat)) (name : String)
    (h : ∀ a ∈ desc, a.1 ≠ name) : lookupAttr desc name = Option.none := by
  induction desc with
  | nil => rfl
  | cons a rest ih =>
    have ha : a.1 ≠ name := h a (List.mem_cons_self a rest)
    have hrest : ∀ b ∈ rest, b.1 ≠ name := fun b hb => h b (List.mem_cons_of_mem a hb)
    simp [lookupAttr, ha, ih hrest]

theorem getD_set_self {α : Type} (l : List α) (i : Nat) (a d : α) (h : i < l.length) :
    (l.set i a).getD i d = a := by
  induction l generalizing i with
  | nil => simp at h
  | cons b rest ih =>
    cases i with
    | zero => rfl
    | succ j =>
      simp only [List.set_cons_succ, List.getD_cons_succ]
      exact ih j (by simpa using h)

/-- Claim C5: `get` with an expected type incompatible with the declared
type of the attribute yields `Ok(None)` while the attribute is unset (indistinguishable
from absence), and yields the `IncompatibleTypes` error once the attribute
holds a value of its declared type. -/
theorem c5_wrong_type_get (rv : RecordValue) (name : String) (i declared expected : Nat)
    (hlook : lookupAttr rv.descriptor name = some (i, declared))
    (hT : expected ≠ declared) :
    (rv.slots.getD i Option.none = Option.none →
      get_by_name rv expected name = .ok Option.none) ∧
    (∀ v : StoredValue, rv.slots.getD i Option.none = some v → v.oid = declared →
      get_by_name rv expected name = .error TryFromDatumError.incompatibleTypes) := by
  constructor
  · intro hslot
    unfold get_by_name
    rw [hlook]
    dsimp only
    rw [hslot]
  · intro v hslot hoid
    unfold get_by_name
    rw [hlook]
    dsimp only
    rw [hslot]
    dsimp only
    have hne : ¬ (v.oid = expected) := by
      rw [hoid]
      intro he
      exact hT he.symm
    rw [if_neg hne]

/-- Witness for `c5_wrong_type_get`: reading `name` (declared `text`) at type
`int` from a `DogWithAge` record gives `Ok(None)` while unset, and
`IncompatibleTypes` once `name` holds a text value. -/
theorem c5_wrong_type_get_witness :
    lookupAttr rvEmptyDog.descriptor attrName = some (0, textOid) ∧
    intOid ≠ textOid ∧
    get_by_name rvEmptyDog intOid attrName = .ok Option.none ∧
    get_by_name rvNamedDog intOid attrName = .error TryFromDatumError.incompatibleTypes := by
  refine ⟨rfl, by decide, ?_, ?_⟩
  · exact (c5_wrong_type_get rvEmptyDog attrName 0 textOid intOid rfl (by decide)).1 rfl
  · exact (c5_wrong_type_get rvNamedDog attrName 0 textOid intOid rfl (by decide)).2
      ⟨textOid, 7⟩ rfl rfl

/-- Claim C6: `set` with a value whose type is incompatible with the declared
type of the attribute returns the `IncompatibleTypes` error and leaves the
record — in particular the previously stored value of the attribute —
unchanged. -/
theorem c6_set_incompatible_atomic (rv : RecordValue) (name : String) (v : StoredValue)
    (i declared : Nat)
    (hlook : lookupAttr rv.descriptor name = some (i, declared))
    (hv : v.oid ≠ declared) :
    set_by_name rv name v = (.error TryFromDatumError.incompatibleTypes, rv) := by
  unfold set_by_name
  rw [hlook]
  dsimp only
  rw [if_neg hv]

/-- Witness for `c6_set_incompatible_atomic`: writing an `int` value into the
`text` attribute `name` fails with `IncompatibleTypes` and keeps the record
(with its stored `name` value) intact. -/
theorem c6_set_incompatible_atomic_witness :
    set_by_name rvNamedDog attrName ⟨intOid, 1⟩
      = (.error TryFromDatumError.incompatibleTypes, rvNamedDog) :=
  c6_set_incompatible_atomic rvNamedDog attrName ⟨intOid, 1⟩ 0 textOid rfl (by decide)

/-- Claim C7: `get`/`set` with an attribute name absent from the descriptor
return `NoSuchAttributeName` carrying that name, and `get`/`set` with a
1-based index greater than the descriptor length return
`NoSuchAttributeNumber` carrying that index. -/
theorem c7_missing_attr_errors (rv : RecordValue) (name : String) (idx : Nat)
    (v : StoredValue) (expected : Nat)
    (hname : ∀ a ∈ rv.descriptor, a.1 ≠ name)
    (hidx : rv.descriptor.length < idx) :
    get_by_name rv expected name = .error (TryFromDatumError.noSuchAttributeName name) ∧
    (set_by_name rv name v).1 = .error (TryFromDatumError.noSuchAttributeName name) ∧
    get_by_index rv expected idx = .error (TryFromDatumError.noSuchAttributeNumber idx) ∧
    (set_by_index rv idx v).1 = .error (TryFromDatumError.noSuchAttributeNumber idx) := by
  have hl : lookupAttr rv.descriptor name = Option.none :=
    lookupAttr_eq_none rv.descriptor name hname
  have hb : ¬ (1 ≤ idx ∧ idx ≤ rv.descriptor.length) := by omega
  refine ⟨?_, ?_, ?_, ?_⟩
  · unfold get_by_name
    rw [hl]
  · unfold set_by_name
    rw [hl]
  · unfold get_by_index
    rw [if_neg hb]
  · unfold set_by_index
    rw [if_neg hb]

/-- Witness for `c7_missing_attr_errors` at the absent name
`DEFINITELY_NOT_EXISTING` and the out-of-range index `9001`. -/
theorem c7_missing_attr_errors_witness :
    get_by_name rvEmptyDog textOid missingAttr
        = .error (TryFromDatumError.noSuchAttributeName missingAttr) ∧
    (set_by_name rvEmptyDog missingAttr ⟨textOid, 7⟩).1
        = .error (TryFromDatumError.noSuchAttributeName missingAttr) ∧
    get_by_index rvEmptyDog textOid 9001
        = .error (TryFromDatumError.noSuchAttributeNumber 9001) ∧
    (set_by_index rvEmptyDog 9001 ⟨textOid, 7⟩).1
        = .error (TryFromDatumError.noSuchAttributeNumber 9001) :=
  c7_missing_attr_errors rvEmptyDog missingAttr 9001 ⟨textOid, 7⟩ textOid
    (by decide) (by decide)

/-- Claim C8: on a host-allocated record, `set` of a value of the declared
type of the attribute succeeds, and a `get` of the same attribute then
returns `Some` of exactly the value that was set. -/
theorem c8_set_get_roundtrip (rv : RecordValue) (name : String) (v : StoredValue)
    (i declared : Nat)
    (hlen : rv.slots.length = rv.descriptor.length)
    (hlook : lookupAttr rv.descriptor name = some (i, declared))
    (hv : v.oid = declared) :
    (set_by_name rv name v).1 = .ok () ∧
    get_by_name (set_by_name rv name v).2 v.oid name = .ok (some v) := by
  have hi : i < rv.descriptor.length := lookupAttr_lt rv.descriptor name i declared hlook
  unfold set_by_name
  rw [hlook]
  dsimp only
  rw [if_pos hv]
  dsimp only
  refine ⟨rfl, ?_⟩
  unfold get_by_name
  dsimp only
  rw [hlook]
  dsimp only
  have hset : (rv.slots.set i (some v)).getD i Option.none = some v :=
    getD_set_self rv.slots i (some v) Option.none (by rw [hlen]; exact hi)
  rw [hset]
  dsimp only
  rw [if_pos rfl]

/-- Witness for `c8_set_get_roundtrip`: setting `age` to the int value `42` on
a fresh `DogWithAge` and reading `age` back returns `Some 42`. -/
theorem c8_set_get_roundtrip_witness :
    rvEmptyDog.slots.length = rvEmptyDog.descriptor.length ∧
    lookupAttr rvEmptyDog.descriptor attrAge = some (1, intOid) ∧
    (set_by_name rvEmptyDog attrAge ⟨intOid, 42⟩).1 = .ok () ∧
    get_by_name (set_by_name rvEmptyDog attrAge ⟨intOid, 42⟩).2 intOid attrAge
        = .ok (some ⟨intOid, 42⟩) := by
  obtain ⟨w1, w2⟩ := c8_set_get_roundtrip rvEmptyDog attrAge ⟨intOid, 42⟩ 1 intOid rfl rfl rfl
  exact ⟨rfl, rfl, w1, w2⟩

end HeapTuple

namespace PgExtern

theorem parse_type_tuple_ne_trigger (elems : List SynType) (r : Returning)
    (h : parse_type_tuple elems = .ok r) : r ≠ Returning.trigger := by
  unfold parse_type_tuple at h
  split at h
  · cases h
    intro hc
    cases hc
  · split at h
    · cases h
    · cases h
      intro hc
      cases hc

theorem parse_trait_bound_ne_trigger (segs : List PathSegment) (r : Returning)
    (h : parse_trait_bound segs = .ok r) : r ≠ Returning.trigger := by
  unfold parse_trait_bound at h
  repeat' split at h
  any_goals cases h
  any_goals intro hc
  any_goals cases hc
  exact parse_type_tuple_ne_trigger _ _ h rfl

theorem parse_impl_trait_ne_trigger (bounds : List TypeParamBound) (r : Returning)
    (h : parse_impl_trait bounds = .ok r) : r ≠ Returning.trigger := by
  unfold parse_impl_trait at h
  split at h
  · cases h
  · exact parse_trait_bound_ne_trigger _ _ h
  · cases h
    intro hc
    cases hc

theorem parse_dyn_trait_ne_trigger (bounds : List TypeParamBound) (r : Returning)
    (h : parse_dyn_trait bounds = .ok r) : r ≠ Returning.trigger := by
  unfold parse_dyn_trait at h
  split at h
  · cases h
  · exact parse_trait_bound_ne_trigger _ _ h
  · cases h
    intro hc
    cases hc

theorem scanSegment_state (st : ScanState) (seg : PathSegment) (st' : ScanState)
    (h : scanSegment st seg = .ok st') :
    st'.sawDatum = (st.sawDatum || seg.ident == "Datum") ∧
    st'.sawPgSys = (st.sawPgSys || seg.ident == "pg_sys") ∧
    (goodInner st → goodInner st') := by
  unfold scanSegment at h
  dsimp only at h
  split at h
  · split at h
    · split at h
      · cases h
      · rename_i bounds heq r hr
        cases h
        refine ⟨rfl, rfl, ?_⟩
        intro _ r2 hr2
        simp only [Option.some.injEq] at hr2
        subst hr2
        exact parse_impl_trait_ne_trigger _ _ hr
    · split at h
      · cases h
      · rename_i bounds heq r hr
        cases h
        refine ⟨rfl, rfl, ?_⟩
        intro _ r2 hr2
        simp only [Option.some.injEq] at hr2
        subst hr2
        exact parse_dyn_trait_ne_trigger _ _ hr
    · cases h
      exact ⟨rfl, rfl, fun hg => hg⟩
  · cases h
    exact ⟨rfl, rfl, fun hg => hg⟩

theorem scanSegments_state (segs : List PathSegment) :
    ∀ (st st' : ScanState), scanSegments st segs = .ok st' →
      st'.sawDatum = (st.sawDatum || segs.any (fun s => s.ident == "Datum")) ∧
      st'.sawPgSys = (st.sawPgSys || segs.any (fun s => s.ident == "pg_sys")) ∧
      (goodInner st → goodInner st') := by
  induction segs with
  | nil =>
    intro st st' h
    cases h
    simp [goodInner]
  | cons seg rest ih =>
    intro st st' h
    unfold scanSegments at h
    split at h
    · cases h
    · rename_i st1 h1
      obtain ⟨hd1, hp1, hg1⟩ := scanSegment_state st seg st1 h1
      obtain ⟨hd2, hp2, hg2⟩ := ih st1 st' h
      refine ⟨?_, ?_, fun hg => hg2 (hg1 hg)⟩
      · rw [hd2, hd1, List.any_cons]
        simp [Bool.or_assoc]
      · rw [hp2, hp1, List.any_cons]
        simp [Bool.or_assoc]

/-- Claim C1, counterexample: for the declared return type `(i32,)` — a tuple
with exactly one element carrying no name marker — the classifier produces a
one-column `Iterated`, not `SetOf` as the claim states
(`parse_type_tuple`, `returning.rs` lines 64-107, never emits `SetOf`). -/
theorem c1_single_tuple_counterexample :
    Returning.tryFrom (SynReturnType.ty (SynType.tuple [tyI32]))
        = .ok (Returning.iterated [⟨uI32, Option.none⟩]) ∧
    Returning.isSetOf (Returning.iterated [⟨uI32, Option.none⟩]) = false :=
  ⟨rfl, rfl⟩

/-- Claim C1 (amended): for every declared return type that is a tuple with
exactly one element whose element parses to an anonymous (un-named) iterated
item with resolved type `u` — whether the tuple is the return type itself or
the `Item` of a returned `Iterator` — the classifier produces the one-column
`Iterated [(u, no name)]`, which is not a `SetOf` shape. -/
theorem c1_single_anonymous_tuple_iterated (ty : SynType) (u : UsedType)
    (h : parseTupleElem ty = .ok ⟨u, Option.none⟩) :
    Returning.tryFrom (SynReturnType.ty (SynType.tuple [ty]))
        = .ok (Returning.iterated [⟨u, Option.none⟩]) ∧
    Returning.tryFrom (SynReturnType.ty (SynType.implTrait [TypeParamBound.traitBound
        [PathSegment.mk strIterator (PathArguments.angleBracketed
          [GenericArgument.binding strItem (SynType.tuple [ty])])]]))
        = .ok (Returning.iterated [⟨u, Option.none⟩]) ∧
    Returning.isSetOf (Returning.iterated [⟨u, Option.none⟩]) = false := by
  have h1 : parse_type_tuple [ty] = .ok (Returning.iterated [⟨u, Option.none⟩]) := by
    unfold parse_type_tuple parseTupleElems
    rw [h]
    rfl
  refine ⟨h1, ?_, rfl⟩
  have h2 : Returning.tryFrom (SynReturnType.ty (SynType.implTrait [TypeParamBound.traitBound
      [PathSegment.mk strIterator (PathArguments.angleBracketed
        [GenericArgument.binding strItem (SynType.tuple [ty])])]]))
      = parse_type_tuple [ty] := rfl
  rw [h2, h1]

/-- Witness for `c1_single_anonymous_tuple_iterated` at the element `i32`. -/
theorem c1_single_anonymous_tuple_iterated_witness :
    Returning.tryFrom (SynReturnType.ty (SynType.tuple [tyI32]))
        = .ok (Returning.iterated [⟨uI32, Option.none⟩]) ∧
    Returning.tryFrom (SynReturnType.ty (SynType.implTrait [TypeParamBound.traitBound
        [PathSegment.mk strIterator (PathArguments.angleBracketed
          [GenericArgument.binding strItem (SynType.tuple [tyI32])])]]))
        = .ok (Returning.iterated [⟨uI32, Option.none⟩]) ∧
    Returning.isSetOf (Returning.iterated [⟨uI32, Option.none⟩]) = false :=
  c1_single_anonymous_tuple_iterated tyI32 uI32 rfl

/-- Claim C2, counterexample: the path type `foo::pg_sys::Datum` mixes the
trigger marker `Datum` with the ordinary segment `foo` (and `pg_sys`), yet the
classifier produces `Trigger` — contradicting the claim that only the bare
marker qualifies and every other combination falls through to scalar
resolution. -/
theorem c2_mixed_path_counterexample :
    Returning.tryFrom (SynReturnType.ty (SynType.path
      [PathSegment.mk strFoo PathArguments.noArgs,
       PathSegment.mk strPgSys PathArguments.noArgs,
       PathSegment.mk strDatum PathArguments.noArgs])) = .ok Returning.trigger ∧
    [PathSegment.mk strFoo PathArguments.noArgs,
       PathSegment.mk strPgSys PathArguments.noArgs,
       PathSegment.mk strDatum PathArguments.noArgs].length = 3 :=
  ⟨rfl, rfl⟩

/-- Claim C2 (amended): for a declared path return type whose segment scan
succeeds, the classifier produces `Trigger` exactly when some segment is
`Datum` and either some segment is `pg_sys` or the path has exactly one
segment; every other path falls through to the inner-iterator or scalar
resolution (`returning.rs` line 202). -/
theorem c2_trigger_iff (segs : List PathSegment) (st : ScanState)
    (h : scanSegments initScan segs = .ok st) :
    Returning.tryFrom (SynReturnType.ty (SynType.path segs)) = .ok Returning.trigger
      ↔ segs.any (fun s => s.ident == "Datum") = true ∧
        (segs.any (fun s => s.ident == "pg_sys") = true ∨ segs.length = 1) := by
  obtain ⟨hd, hp, hg⟩ := scanSegments_state segs initScan st h
  have hgst : goodInner st := hg (by intro r hr; simp [initScan] at hr)
  simp only [initScan, Bool.false_or] at hd hp
  have htf : Returning.tryFrom (SynReturnType.ty (SynType.path segs)) = tryFromPath segs := rfl
  rw [htf]
  unfold tryFromPath
  rw [h]
  dsimp only
  have hcond_iff : (((st.sawDatum && st.sawPgSys) || (st.sawDatum && (segs.length == 1))) = true)
      ↔ (segs.any (fun s => s.ident == "Datum") = true ∧
         (segs.any (fun s => s.ident == "pg_sys") = true ∨ segs.length = 1)) := by
    rw [hd, hp]
    simp only [Bool.or_eq_true, Bool.and_eq_true, beq_iff_eq]
    tauto
  by_cases hcond : ((st.sawDatum && st.sawPgSys) || (st.sawDatum && (segs.length == 1))) = true
  · rw [if_pos hcond]
    exact ⟨fun _ => hcond_iff.mp hcond, fun _ => rfl⟩
  · rw [if_neg hcond]
    have hrhs := fun hr => hcond (hcond_iff.mpr hr)
    constructor
    · intro hl
      exfalso
      cases hi : st.inner with
      | some r =>
        rw [hi] at hl
        simp only [Except.ok.injEq] at hl
        exact hgst r hi hl
      | none =>
        rw [hi] at hl
        cases hu : UsedType.new (SynType.path segs) with
        | error e =>
          rw [hu] at hl
          cases hl
        | ok u =>
          rw [hu] at hl
          simp at hl
    · intro hr
      exact absurd hr hrhs

/-- Witness for `c2_trigger_iff` at the path `pg_sys::Datum`. -/
theorem c2_trigger_iff_witness :
    scanSegments initScan
        [PathSegment.mk strPgSys PathArguments.noArgs,
         PathSegment.mk strDatum PathArguments.noArgs]
      = .ok ⟨true, true, false, false, Option.none⟩ ∧
    (Returning.tryFrom (SynReturnType.ty (SynType.path
        [PathSegment.mk strPgSys PathArguments.noArgs,
         PathSegment.mk strDatum PathArguments.noArgs])) = .ok Returning.trigger
      ↔ [PathSegment.mk strPgSys PathArguments.noArgs,
         PathSegment.mk strDatum PathArguments.noArgs].any (fun s => s.ident == "Datum") = true ∧
        ([PathSegment.mk strPgSys PathArguments.noArgs,
          PathSegment.mk strDatum PathArguments.noArgs].any (fun s => s.ident == "pg_sys") = true ∨
         [PathSegment.mk strPgSys PathArguments.noArgs,
          PathSegment.mk strDatum PathArguments.noArgs].length = 1)) :=
  ⟨rfl, c2_trigger_iff _ ⟨true, true, false, false, Option.none⟩ rfl⟩

end PgExtern
